import Mathlib

/-!
Verification of the NEST connection-builder subsystem (`nestkernel/conn_builder.h`).

The definitions below are a shallow embedding of the builder hierarchy declared in
`conn_builder.h`.  Functions whose bodies appear inline in the header
(`get_synapse_model`, `get_default_delay`, `use_structural_plasticity_`,
`register_parameters_requiring_skipping_`, `skip_conn_parameter_`, the
`supports_symmetric` / `is_symmetric` / `requires_proxies` virtual overrides and the
`NotImplemented`-throwing default bodies of `sp_connect_` / `disconnect_` /
`sp_disconnect_`) are translated directly from that code.  Functions only declared in
the header (their bodies live in a `.cpp` file that is not part of this tree) are
modelled from the specification and carry a doc comment saying so.
-/

namespace Nest

/-- Errors thrown by the builder code: `KernelException`, `NotImplemented` and the
configuration errors raised during validation. -/
inductive BuilderError where
  | kernelException (msg : String)
  | notImplemented (msg : String)
  | configurationError (msg : String)
deriving Repr, DecidableEq

/-- The three kinds of `ConnParameter` (see spec section 3: tagged variant
\x7bconstant, per-worker array with cursor, random-distribution sampler\x7d). -/
inductive ParamKind where
  | scalar
  | array
  | random
deriving Repr, DecidableEq

/-- A connection parameter (`ConnParameter`): its kind plus, for array parameters,
one read cursor per thread (the per-worker pointer that `skip` advances). -/
structure ConnParameter where
  kind : ParamKind
  cursors : List Nat
deriving Repr, DecidableEq

/-- Embeds `ConnParameter::is_array()`: true exactly for array parameters. -/
def ConnParameter.is_array (p : ConnParameter) : Bool :=
  p.kind = ParamKind.array

/-- Embeds `ConnParameter::is_scalar()`: true exactly for constant (scalar) parameters. -/
def ConnParameter.is_scalar (p : ConnParameter) : Bool :=
  p.kind = ParamKind.scalar

/-- Embeds `ConnParameter::skip(target_thread, n_skip)`: advance the cursor of thread
`tid` by `n`. -/
def ConnParameter.skip (p : ConnParameter) (tid n : Nat) : ConnParameter :=
  { p with cursors := p.cursors.set tid (p.cursors.getD tid 0 + n) }

/-- State of a `ConnBuilder`: the fields of the base class that the verified
operations touch.  Population handles are modelled by their identity (`sources_`,
`targets_` identify the `NodeCollectionPTR`); `params` holds every `ConnParameter`
owned by the builder (weights, delays and other synapse parameters), and
`parameters_requiring_skipping_` holds indices into `params` (standing for the
pointers the C++ vector holds). -/
structure ConnBuilderState where
  sources_ : Nat
  targets_ : Nat
  allow_autapses_ : Bool
  allow_multapses_ : Bool
  make_symmetric_ : Bool
  use_pre_synaptic_element_ : Bool
  use_post_synaptic_element_ : Bool
  params : List ConnParameter
  parameters_requiring_skipping_ : List Nat
  synapse_model_id_ : List Nat
  default_delay_ : List Bool
deriving Repr, DecidableEq

/-- Embeds `ConnBuilder::get_synapse_model()`: throws a `KernelException` when more than one
synapse-model slot is present, otherwise returns `synapse_model_id_[0]`. -/
def ConnBuilderState.get_synapse_model (b : ConnBuilderState) : Except BuilderError Nat :=
  if b.synapse_model_id_.length > 1 then
    .error (.kernelException "Can only retrieve synapse model when one synapse per connection is used.")
  else
    .ok (b.synapse_model_id_.getD 0 0)

/-- Embeds `ConnBuilder::get_default_delay()`: throws a `KernelException` when more than one
synapse-model slot is present, otherwise returns `default_delay_[0]`. -/
def ConnBuilderState.get_default_delay (b : ConnBuilderState) : Except BuilderError Bool :=
  if b.synapse_model_id_.length > 1 then
    .error (.kernelException "Can only retrieve default delay when one synapse per connection is used.")
  else
    .ok (b.default_delay_.getD 0 false)

/-- Embeds `ConnBuilder::use_structural_plasticity_()`: conjunction of
`use_pre_synaptic_element_` and `use_post_synaptic_element_`. -/
def ConnBuilderState.use_structural_plasticity_ (b : ConnBuilderState) : Bool :=
  b.use_pre_synaptic_element_ && b.use_post_synaptic_element_

/-- Modelled from the spec: `ConnBuilder::all_parameters_scalar_()` (declared in the
header, body not in this tree) returns whether every connection parameter is scalar
(spec section 4.3: "every parameter scalar"). -/
def ConnBuilderState.all_parameters_scalar_ (b : ConnBuilderState) : Bool :=
  b.params.all (fun p => p.is_scalar)

/-- The connection-rule strategies of the builder hierarchy, one per concrete
`ConnBuilder` subclass declared in the header. -/
inductive Rule where
  | oneToOne
  | allToAll
  | fixedInDegree
  | fixedOutDegree
  | fixedTotalNumber
  | bernoulli
  | bernoulliAstro
  | symmetricBernoulli
  | sp
deriving Repr, DecidableEq

/-- Embeds `ConnBuilder::supports_symmetric()` base-class body: `false`. -/
def ConnBuilderBase.supports_symmetric : Bool := false

/-- Virtual dispatch of `supports_symmetric()`: `OneToOneBuilder` and
`SymmetricBernoulliBuilder` override it to `true`; every other builder inherits the
base-class body. -/
def supports_symmetric (r : Rule) : Bool :=
  match r with
  | .oneToOne => true
  | .symmetricBernoulli => true
  | _ => ConnBuilderBase.supports_symmetric

/-- Embeds `ConnBuilder::requires_proxies()` base-class body: `true`. -/
def ConnBuilderBase.requires_proxies : Bool := true

/-- Virtual dispatch of `requires_proxies()`: `OneToOneBuilder` and `AllToAllBuilder`
override it to `false`; every other builder inherits the base-class body. -/
def requires_proxies (r : Rule) : Bool :=
  match r with
  | .oneToOne => false
  | .allToAll => false
  | _ => ConnBuilderBase.requires_proxies

/-- Embeds `ConnBuilder::is_symmetric()` base-class body: `false`. -/
def ConnBuilderBase.is_symmetric : Bool := false

/-- Embeds `AllToAllBuilder::is_symmetric()`: `sources_ == targets_ and
all_parameters_scalar_()`. -/
def AllToAllBuilder.is_symmetric (b : ConnBuilderState) : Bool :=
  b.sources_ == b.targets_ && b.all_parameters_scalar_

/-- Default `ConnParameter` used only to give `List.getD` a value; never an element of
a builder's parameter list in any statement that matters. -/
def dfltParam : ConnParameter := { kind := ParamKind.scalar, cursors := [] }

/-- The indices of exactly the array-valued parameters, in order: the contents the
registration loop is supposed to produce. -/
def registeredIndices (params : List ConnParameter) : List Nat :=
  (List.range params.length).filter (fun i => (params.getD i dfltParam).is_array)

/-- Embeds `ConnBuilder::register_parameters_requiring_skipping_(param)`: push the parameter
onto `parameters_requiring_skipping_` iff `param.is_array()`.  Parameters are
identified by their index into `params` (standing for the C++ pointer). -/
def register_parameters_requiring_skipping_ (b : ConnBuilderState) (i : Nat) :
    ConnBuilderState :=
  if (b.params.getD i dfltParam).is_array then
    { b with parameters_requiring_skipping_ := b.parameters_requiring_skipping_ ++ [ i ] }
  else
    b

/-- Registration of every parameter in construction order, as the `ConnBuilder`
constructor does (it calls `register_parameters_requiring_skipping_` once per
extracted parameter). -/
def register_all (b : ConnBuilderState) : ConnBuilderState :=
  (List.range b.params.length).foldl register_parameters_requiring_skipping_ b

/-- Embeds `ConnBuilder::skip_conn_parameter_(target_thread, n_skip)`: call
`skip(target_thread, n_skip)` on every parameter held in
`parameters_requiring_skipping_`. -/
def skipRegistered (reg : List Nat) (tid n : Nat) (ps : List ConnParameter) :
    List ConnParameter :=
  reg.foldl (fun ps i => ps.modify (fun p => p.skip tid n) i) ps

def ConnBuilderState.skip_conn_parameter_ (b : ConnBuilderState) (tid n : Nat) :
    ConnBuilderState :=
  { b with params := skipRegistered b.parameters_requiring_skipping_ tid n b.params }

/-- A worker's view during the parallel loop: its builder plus the edges it has
created so far through the Connection Sink. -/
structure WorkerState where
  builder : ConnBuilderState
  sink : List (Nat × Nat)
deriving Repr, DecidableEq

/-- The skip step as executed in the worker loop for a non-local target:
`skip_conn_parameter_` touches only the builder's parameter cursors and never calls
the Connection Sink. -/
def WorkerState.skipStep (s : WorkerState) (tid n : Nat) : WorkerState :=
  { s with builder := s.builder.skip_conn_parameter_ tid n }

/-- Embeds `ConnBuilder::sp_connect_()` base-class body: throw `NotImplemented`. -/
def ConnBuilderBase.sp_connect_ : Except BuilderError Unit :=
  .error (.notImplemented "This connection rule is not implemented for structural plasticity.")

/-- Embeds `ConnBuilder::disconnect_()` base-class body: throw `NotImplemented`. -/
def ConnBuilderBase.disconnect_ : Except BuilderError Unit :=
  .error (.notImplemented "This disconnection rule is not implemented.")

/-- Embeds `ConnBuilder::sp_disconnect_()` base-class body: throw `NotImplemented`. -/
def ConnBuilderBase.sp_disconnect_ : Except BuilderError Unit :=
  .error (.notImplemented "This connection rule is not implemented for structural plasticity.")

/-- Virtual dispatch of `disconnect_()`: per the header, only `OneToOneBuilder` and
`AllToAllBuilder` override it (their overriding bodies perform the disconnection);
every other builder inherits the throwing base-class body. -/
def disconnect_ (r : Rule) : Except BuilderError Unit :=
  match r with
  | .oneToOne => .ok ()
  | .allToAll => .ok ()
  | _ => ConnBuilderBase.disconnect_

/-- Virtual dispatch of `sp_connect_()`: per the header, only `OneToOneBuilder` and
`AllToAllBuilder` override it; every other builder inherits the throwing base-class
body. -/
def sp_connect_ (r : Rule) : Except BuilderError Unit :=
  match r with
  | .oneToOne => .ok ()
  | .allToAll => .ok ()
  | _ => ConnBuilderBase.sp_connect_

/-- Virtual dispatch of `sp_disconnect_()`: per the header, only `OneToOneBuilder`
and `AllToAllBuilder` override it; every other builder inherits the throwing
base-class body. -/
def sp_disconnect_ (r : Rule) : Except BuilderError Unit :=
  match r with
  | .oneToOne => .ok ()
  | .allToAll => .ok ()
  | _ => ConnBuilderBase.sp_disconnect_

/-- Modelled from the spec: `ConnBuilder::connect()` (body not in this tree) checks
`make_symmetric` against the rule's `supports_symmetric()` before any worker starts;
a failing check raises a configuration error and no edge is created (the error return
carries no edges); otherwise the workers run and the rule's edge set is produced. -/
def connect (r : Rule) (makeSymmetric : Bool) (ruleEdges : List (Nat × Nat)) :
    Except BuilderError (List (Nat × Nat)) :=
  if makeSymmetric && !supports_symmetric r then
    .error (.configurationError "This connection rule does not support symmetric connections.")
  else
    .ok ruleEdges

/-- Modelled from the spec: `ConnBuilder::loop_over_targets_()` (declared at
conn_builder.h:187, body not in this tree); per its documentation and spec section
4.1, conventional looping over targets (option b) must be used when any connection
parameter requires skipping or the targets are not given as a simple range, and
should be used when the number of targets is smaller than the number of local
nodes. -/
def ConnBuilderState.loop_over_targets_ (b : ConnBuilderState)
    (targetsIsRange : Bool) (targetsSize localNodes : Nat) : Bool :=
  !b.parameters_requiring_skipping_.isEmpty || !targetsIsRange ||
    decide (targetsSize < localNodes)

end Nest

namespace Nest

theorem register_foldl_spec (l : List Nat) (b : ConnBuilderState) :
    (l.foldl register_parameters_requiring_skipping_ b).params = b.params ∧
    (l.foldl register_parameters_requiring_skipping_ b).parameters_requiring_skipping_ =
      b.parameters_requiring_skipping_ ++
        l.filter (fun i => (b.params.getD i dfltParam).is_array) := by
  induction l generalizing b with
  | nil => simp
  | cons i t ih =>
    rw [List.foldl_cons]
    by_cases h : (b.params.getD i dfltParam).is_array = true
    · have step : register_parameters_requiring_skipping_ b i =
          { b with parameters_requiring_skipping_ :=
              b.parameters_requiring_skipping_ ++ [ i ] } := by
        simp only [register_parameters_requiring_skipping_, if_pos h]
      rw [step]
      refine ⟨(ih _).1, ?_⟩
      rw [(ih _).2]
      have h2 : (b.params[i]?.getD dfltParam).is_array = true := by
        rw [← List.getD_eq_getElem?_getD]; exact h
      simp [List.filter_cons, h2]
    · have step : register_parameters_requiring_skipping_ b i = b := by
        simp only [register_parameters_requiring_skipping_, if_neg h]
      rw [step]
      refine ⟨(ih b).1, ?_⟩
      rw [(ih b).2]
      have h2 : ¬(b.params[i]?.getD dfltParam).is_array = true := by
        rw [← List.getD_eq_getElem?_getD]; exact h
      simp [List.filter_cons, h2]

theorem register_all_params (b : ConnBuilderState) :
    (register_all b).params = b.params :=
  (register_foldl_spec _ b).1

theorem register_all_registered (b : ConnBuilderState)
    (h0 : b.parameters_requiring_skipping_ = []) :
    (register_all b).parameters_requiring_skipping_ = registeredIndices b.params := by
  rw [register_all, (register_foldl_spec _ b).2, h0, registeredIndices]
  simp

theorem mem_registeredIndices (params : List ConnParameter) (i : Nat) :
    i ∈ registeredIndices params ↔
      i < params.length ∧ (params.getD i dfltParam).is_array = true := by
  simp [registeredIndices, List.mem_filter, List.mem_range]

theorem registeredIndices_nodup (params : List ConnParameter) :
    (registeredIndices params).Nodup :=
  (List.nodup_range _).filter _

theorem getD_modify_ne (f : ConnParameter → ConnParameter) (i j : Nat)
    (ps : List ConnParameter) (h : i ≠ j) :
    (ps.modify f i).getD j dfltParam = ps.getD j dfltParam := by
  rw [List.getD_eq_getElem?_getD, List.getD_eq_getElem?_getD, List.getElem?_modify]
  cases ps[j]? <;> simp [h]

theorem getD_modify_self (f : ConnParameter → ConnParameter) (i : Nat)
    (ps : List ConnParameter) (h : i < ps.length) :
    (ps.modify f i).getD i dfltParam = f (ps.getD i dfltParam) := by
  rw [List.getD_eq_getElem?_getD, List.getD_eq_getElem?_getD, List.getElem?_modify]
  rw [List.getElem?_eq_getElem h]
  simp

theorem foldl_modify_getD (f : ConnParameter → ConnParameter) (l : List Nat) :
    ∀ (ps : List ConnParameter) (j : Nat), l.Nodup →
      (j ∉ l →
        (l.foldl (fun ps i => ps.modify f i) ps).getD j dfltParam = ps.getD j dfltParam) ∧
      (j ∈ l → j < ps.length →
        (l.foldl (fun ps i => ps.modify f i) ps).getD j dfltParam =
          f (ps.getD j dfltParam)) := by
  induction l with
  | nil => simp
  | cons i t ih =>
    intro ps j hnd
    have hit : i ∉ t := (List.nodup_cons.mp hnd).1
    have hnt : t.Nodup := (List.nodup_cons.mp hnd).2
    simp only [List.foldl_cons]
    constructor
    · intro hj
      have hji : j ≠ i := fun h => hj (h ▸ List.mem_cons_self i t)
      have hjt : j ∉ t := fun h => hj (List.mem_cons_of_mem i h)
      rw [(ih (ps.modify f i) j hnt).1 hjt]
      exact getD_modify_ne f i j ps (fun h => hji h.symm)
    · intro hj hlen
      rcases List.mem_cons.mp hj with hji | hjt
      · subst hji
        rw [(ih (ps.modify f j) j hnt).1 hit]
        exact getD_modify_self f j ps hlen
      · have hji : i ≠ j := fun h => hit (h ▸ hjt)
        have hlen' : j < (ps.modify f i).length := by
          rw [List.length_modify]; exact hlen
        rw [(ih (ps.modify f i) j hnt).2 hjt hlen']
        rw [getD_modify_ne f i j ps hji]

/-- C4: with more than one synapse-model slot, `get_synapse_model()` and
`get_default_delay()` raise a `KernelException` instead of returning a value; with
exactly one slot they return that slot's model id and default-delay flag. -/
theorem single_model_accessor_contract (b : ConnBuilderState) :
    (b.synapse_model_id_.length > 1 →
      (∃ m, b.get_synapse_model = .error (.kernelException m)) ∧
      (∃ m, b.get_default_delay = .error (.kernelException m))) ∧
    (b.synapse_model_id_.length = 1 →
      b.get_synapse_model = .ok (b.synapse_model_id_.getD 0 0) ∧
      b.get_default_delay = .ok (b.default_delay_.getD 0 false)) := by
  constructor
  · intro h
    constructor
    · exact ⟨"Can only retrieve synapse model when one synapse per connection is used.",
        by simp [ConnBuilderState.get_synapse_model, h]⟩
    · exact ⟨"Can only retrieve default delay when one synapse per connection is used.",
        by simp [ConnBuilderState.get_default_delay, h]⟩
  · intro h
    constructor
    · simp [ConnBuilderState.get_synapse_model, h]
    · simp [ConnBuilderState.get_default_delay, h]

/-- Witness for C4 at a concrete builder with one slot and one with two slots. -/
theorem single_model_accessor_contract_witness :
    ({ sources_ := 0, targets_ := 0, allow_autapses_ := true, allow_multapses_ := true,
       make_symmetric_ := false, use_pre_synaptic_element_ := false,
       use_post_synaptic_element_ := false, params := [],
       parameters_requiring_skipping_ := [], synapse_model_id_ := [7],
       default_delay_ := [true] } : ConnBuilderState).get_synapse_model = .ok 7 := by
  have h := single_model_accessor_contract
    { sources_ := 0, targets_ := 0, allow_autapses_ := true, allow_multapses_ := true,
      make_symmetric_ := false, use_pre_synaptic_element_ := false,
      use_post_synaptic_element_ := false, params := [],
      parameters_requiring_skipping_ := [], synapse_model_id_ := [7],
      default_delay_ := [true] }
  exact (h.2 (by decide)).1

/-- C8: `AllToAllBuilder::is_symmetric()` returns true exactly when the source and
target population handles coincide and every connection parameter is scalar. -/
theorem all_to_all_is_symmetric_iff (b : ConnBuilderState) :
    AllToAllBuilder.is_symmetric b = true ↔
      b.sources_ = b.targets_ ∧ ∀ p ∈ b.params, p.is_scalar = true := by
  simp [AllToAllBuilder.is_symmetric, ConnBuilderState.all_parameters_scalar_,
    List.all_eq_true]

/-- C9: `use_structural_plasticity_()` holds exactly when both a pre-synaptic and a
post-synaptic element name are in use; setting only one of the two never enables
structural plasticity. -/
theorem use_structural_plasticity_iff (b : ConnBuilderState) :
    (b.use_structural_plasticity_ = true ↔
      b.use_pre_synaptic_element_ = true ∧ b.use_post_synaptic_element_ = true) ∧
    (b.use_pre_synaptic_element_ ≠ b.use_post_synaptic_element_ →
      b.use_structural_plasticity_ = false) := by
  constructor
  · simp [ConnBuilderState.use_structural_plasticity_]
  · intro h
    cases hp : b.use_pre_synaptic_element_ <;>
      cases hq : b.use_post_synaptic_element_ <;>
      simp_all [ConnBuilderState.use_structural_plasticity_]

/-- Witness for C9: a builder with only the pre-synaptic element set does not operate
in structural-plasticity mode. -/
theorem use_structural_plasticity_iff_witness :
    ({ sources_ := 0, targets_ := 0, allow_autapses_ := true, allow_multapses_ := true,
       make_symmetric_ := false, use_pre_synaptic_element_ := true,
       use_post_synaptic_element_ := false, params := [],
       parameters_requiring_skipping_ := [], synapse_model_id_ := [0],
       default_delay_ := [false] } : ConnBuilderState).use_structural_plasticity_ = false := by
  have h := use_structural_plasticity_iff
    { sources_ := 0, targets_ := 0, allow_autapses_ := true, allow_multapses_ := true,
      make_symmetric_ := false, use_pre_synaptic_element_ := true,
      use_post_synaptic_element_ := false, params := [],
      parameters_requiring_skipping_ := [], synapse_model_id_ := [0],
      default_delay_ := [false] }
  exact h.2 (by decide)

/-- C10: `requires_proxies()` is false exactly for the one-to-one and all-to-all
builders; every other rule inherits the base-class default `true`. -/
theorem requires_proxies_characterization (r : Rule) :
    requires_proxies r = false ↔ r = Rule.oneToOne ∨ r = Rule.allToAll := by
  cases r <;> simp [requires_proxies, ConnBuilderBase.requires_proxies]

theorem getD_set_self (cs : List Nat) (tid v : Nat) (h : tid < cs.length) :
    (cs.set tid v).getD tid 0 = v := by
  rw [List.getD_eq_getElem?_getD, List.getElem?_set]
  simp [h]

theorem getD_mem_of_lt (params : List ConnParameter) (i : Nat) (h : i < params.length) :
    params.getD i dfltParam ∈ params := by
  rw [List.getD_eq_getElem params dfltParam h]
  exact List.getElem_mem h

theorem no_array_index_iff (params : List ConnParameter) :
    (∀ p ∈ params, p.is_array = false) ↔
      ∀ i, i < params.length → (params.getD i dfltParam).is_array = false := by
  constructor
  · intro h i hi
    exact h _ (getD_mem_of_lt params i hi)
  · intro h p hp
    obtain ⟨i, hi, hpe⟩ := List.mem_iff_getElem.mp hp
    have := h i hi
    rw [List.getD_eq_getElem params dfltParam hi, hpe] at this
    exact this

theorem registeredIndices_eq_nil_iff (params : List ConnParameter) :
    registeredIndices params = [] ↔ ∀ p ∈ params, p.is_array = false := by
  rw [registeredIndices, List.filter_eq_nil_iff, no_array_index_iff]
  constructor
  · intro h i hi
    have := h i (List.mem_range.mpr hi)
    simpa using this
  · intro h i hi
    have := h i (List.mem_range.mp hi)
    simpa using this

/-- C3: after registration, exactly the array-valued parameters are registered for
skipping; `skip_conn_parameter_(tid, n)` then calls `skip` on every registered
parameter, advancing its thread-`tid` cursor by exactly `n`, leaves every
non-registered parameter unchanged, and creates no edge (the Connection Sink is
untouched). -/
theorem skip_conn_parameter_spec (b0 : ConnBuilderState) (tid n : Nat)
    (h0 : b0.parameters_requiring_skipping_ = [])
    (htid : ∀ p ∈ b0.params, tid < p.cursors.length) :
    (∀ i, i ∈ (register_all b0).parameters_requiring_skipping_ ↔
        i < b0.params.length ∧ (b0.params.getD i dfltParam).is_array = true) ∧
    (∀ i, i < b0.params.length →
        ((register_all b0).skip_conn_parameter_ tid n).params.getD i dfltParam =
          if (b0.params.getD i dfltParam).is_array then
            (b0.params.getD i dfltParam).skip tid n
          else b0.params.getD i dfltParam) ∧
    (∀ i, i < b0.params.length → (b0.params.getD i dfltParam).is_array = true →
        (((register_all b0).skip_conn_parameter_ tid n).params.getD i dfltParam).cursors.getD tid 0 =
          (b0.params.getD i dfltParam).cursors.getD tid 0 + n) ∧
    (∀ es : List (Nat × Nat),
        (WorkerState.skipStep ⟨register_all b0, es⟩ tid n).sink = es) := by
  have hreg := register_all_registered b0 h0
  have hpar := register_all_params b0
  have hskip :
      ((register_all b0).skip_conn_parameter_ tid n).params =
        skipRegistered (registeredIndices b0.params) tid n b0.params := by
    rw [ConnBuilderState.skip_conn_parameter_]
    rw [hreg, hpar]
  have key : ∀ i, i < b0.params.length →
      ((register_all b0).skip_conn_parameter_ tid n).params.getD i dfltParam =
        if (b0.params.getD i dfltParam).is_array then
          (b0.params.getD i dfltParam).skip tid n
        else b0.params.getD i dfltParam := by
    intro i hi
    rw [hskip, skipRegistered]
    by_cases ha : (b0.params.getD i dfltParam).is_array = true
    · rw [if_pos ha]
      exact (foldl_modify_getD (fun p => p.skip tid n) (registeredIndices b0.params)
        b0.params i (registeredIndices_nodup b0.params)).2
        ((mem_registeredIndices b0.params i).mpr ⟨hi, ha⟩) hi
    · rw [if_neg ha]
      exact (foldl_modify_getD (fun p => p.skip tid n) (registeredIndices b0.params)
        b0.params i (registeredIndices_nodup b0.params)).1
        (fun hmem => ha ((mem_registeredIndices b0.params i).mp hmem).2)
  refine ⟨?_, key, ?_, ?_⟩
  · intro i
    rw [hreg]
    exact mem_registeredIndices b0.params i
  · intro i hi ha
    rw [key i hi, if_pos ha, ConnParameter.skip]
    exact getD_set_self _ tid _ (htid _ (getD_mem_of_lt b0.params i hi))
  · intro es
    rfl

/-- Concrete builder used to witness C3: two parameters, an array one (with a cursor
per each of two threads) and a scalar one. -/
def skipWitnessBuilder : ConnBuilderState :=
  { sources_ := 0, targets_ := 1, allow_autapses_ := true, allow_multapses_ := true,
    make_symmetric_ := false, use_pre_synaptic_element_ := false,
    use_post_synaptic_element_ := false,
    params := [ { kind := ParamKind.array, cursors := [ 0, 4 ] },
                { kind := ParamKind.scalar, cursors := [ 0, 0 ] } ],
    parameters_requiring_skipping_ := [], synapse_model_id_ := [ 0 ],
    default_delay_ := [ false ] }

/-- Witness for C3: on a concrete builder, skipping with `n = 2` on thread `1`
advances the array parameter's thread-1 cursor from 4 to 6. -/
theorem skip_conn_parameter_spec_witness :
    (((register_all skipWitnessBuilder).skip_conn_parameter_ 1 2).params.getD 0
        dfltParam).cursors.getD 1 0 =
      ((skipWitnessBuilder.params.getD 0 dfltParam).cursors.getD 1 0) + 2 :=
  (skip_conn_parameter_spec skipWitnessBuilder 1 2 rfl (by decide)).2.2.1 0
    (by decide) (by decide)

/-- C5: a builder whose rule does not declare symmetric support rejects
`make_symmetric = true` with a configuration error raised before any worker starts,
so no edge is created (the error return carries no edge set); the rules declaring
symmetric support — one-to-one and symmetric Bernoulli — accept `make_symmetric`. -/
theorem make_symmetric_validation (r : Rule) (edges : List (Nat × Nat)) :
    (supports_symmetric r = false →
      connect r true edges =
        .error (.configurationError "This connection rule does not support symmetric connections.")) ∧
    (supports_symmetric r = true → ∀ ms : Bool, connect r ms edges = .ok edges) ∧
    (supports_symmetric r = true ↔ r = Rule.oneToOne ∨ r = Rule.symmetricBernoulli) := by
  refine ⟨?_, ?_, ?_⟩
  · intro h
    simp [connect, h]
  · intro h ms
    simp [connect, h]
  · cases r <;> simp [supports_symmetric, ConnBuilderBase.supports_symmetric]

/-- Witness for C5: the plain Bernoulli rule (no symmetric support) rejects
`make_symmetric` with a configuration error. -/
theorem make_symmetric_validation_witness :
    connect Rule.bernoulli true [ (1, 2) ] =
      .error (.configurationError "This connection rule does not support symmetric connections.") :=
  (make_symmetric_validation Rule.bernoulli [ (1, 2) ]).1 (by decide)

/-- C6: every rule that does not override `disconnect_` (all but one-to-one and
all-to-all) fails with a `NotImplemented` error on disconnection, and likewise the
structural-plasticity variants `sp_connect_` and `sp_disconnect_` fail with a
`NotImplemented` error for every rule that does not override them. -/
theorem not_implemented_dispatch (r : Rule) (h1 : r ≠ Rule.oneToOne)
    (h2 : r ≠ Rule.allToAll) :
    (∃ m, disconnect_ r = .error (.notImplemented m)) ∧
    (∃ m, sp_connect_ r = .error (.notImplemented m)) ∧
    (∃ m, sp_disconnect_ r = .error (.notImplemented m)) := by
  cases r
  case oneToOne => exact absurd rfl h1
  case allToAll => exact absurd rfl h2
  all_goals exact ⟨⟨_, rfl⟩, ⟨_, rfl⟩, ⟨_, rfl⟩⟩

/-- Witness for C6: the fixed-in-degree rule, which overrides none of the three
methods, throws `NotImplemented` on all of them. -/
theorem not_implemented_dispatch_witness :
    (∃ m, disconnect_ Rule.fixedInDegree = .error (.notImplemented m)) ∧
    (∃ m, sp_connect_ Rule.fixedInDegree = .error (.notImplemented m)) ∧
    (∃ m, sp_disconnect_ Rule.fixedInDegree = .error (.notImplemented m)) :=
  not_implemented_dispatch Rule.fixedInDegree (by decide) (by decide)

/-- C7: the loop-selection decision returns conventional looping over every candidate
target (option b) whenever any connection parameter is an array Parameter Source
(equivalently, after registration, whenever `parameters_requiring_skipping_` is
non-empty) or the target population is not a simple contiguous range; otherwise it
returns direct indexed iteration over the local shard (option a) exactly when the
number of targets is at least the number of local nodes. -/
theorem loop_over_targets_spec (b0 : ConnBuilderState) (targetsIsRange : Bool)
    (targetsSize localNodes : Nat) (h0 : b0.parameters_requiring_skipping_ = []) :
    ((∃ p ∈ b0.params, p.is_array = true) ∨ targetsIsRange = false →
      (register_all b0).loop_over_targets_ targetsIsRange targetsSize localNodes = true) ∧
    ((∀ p ∈ b0.params, p.is_array = false) → targetsIsRange = true →
      ((register_all b0).loop_over_targets_ targetsIsRange targetsSize localNodes = false ↔
        localNodes ≤ targetsSize)) := by
  have hreg := register_all_registered b0 h0
  constructor
  · intro h
    rcases h with harr | hrange
    · have hne : registeredIndices b0.params ≠ [] := by
        intro hnil
        obtain ⟨p, hp, hpa⟩ := harr
        have := (registeredIndices_eq_nil_iff b0.params).mp hnil p hp
        rw [hpa] at this
        exact Bool.noConfusion this
      simp [ConnBuilderState.loop_over_targets_, hreg, List.isEmpty_iff, hne]
    · simp [ConnBuilderState.loop_over_targets_, hrange]
  · intro hall hrange
    have hnil : registeredIndices b0.params = [] :=
      (registeredIndices_eq_nil_iff b0.params).mpr hall
    simp [ConnBuilderState.loop_over_targets_, hreg, hnil, hrange, Nat.not_lt]

/-- Concrete builder used to witness C7: a single array-valued parameter forces
conventional looping over targets. -/
def loopWitnessBuilder : ConnBuilderState :=
  { sources_ := 0, targets_ := 1, allow_autapses_ := true, allow_multapses_ := true,
    make_symmetric_ := false, use_pre_synaptic_element_ := false,
    use_post_synaptic_element_ := false,
    params := [ { kind := ParamKind.array, cursors := [ 0 ] } ],
    parameters_requiring_skipping_ := [], synapse_model_id_ := [ 0 ],
    default_delay_ := [ false ] }

/-- Witness for C7: with an array parameter present, the decision is conventional
looping (option b) even for a range target population larger than the local node
set. -/
theorem loop_over_targets_spec_witness :
    (register_all loopWitnessBuilder).loop_over_targets_ true 9 5 = true :=
  (loop_over_targets_spec loopWitnessBuilder true 9 5 rfl).1 (by decide)

/-- Modelled from the spec: the enumeration of the symmetric Bernoulli rule, one
ordered pair of indices per unordered pair of distinct population positions, built
only for `i < j` (spec section 4.7: "Builds only ordered pairs i<j").  The body of
`SymmetricBernoulliBuilder::connect_` is not in this tree. -/
def symPairs (n : Nat) : List (Nat × Nat) :=
  (List.range n).flatMap
    (fun i => ((List.range n).filter (fun j => i < j)).map (fun j => (i, j)))

/-- Modelled from the spec: `SymmetricBernoulliBuilder::connect_` (body not in this
tree; the class requires the source population to be identical to the target
population, modelled by the single `nodes` list).  One Bernoulli trial is drawn per
unordered pair, and on acceptance both directed edges between the pair's nodes are
created from that same trial (spec section 4.7).  The trial outcome is abstracted as
an arbitrary Boolean function of the pair, so reciprocity holds for every random
stream. -/
def symmetricBernoulliEdges (nodes : List Nat) (trial : Nat → Nat → Bool) :
    List (Nat × Nat) :=
  (symPairs nodes.length).flatMap (fun ij =>
    if trial ij.1 ij.2 then
      [ (nodes.getD ij.1 0, nodes.getD ij.2 0), (nodes.getD ij.2 0, nodes.getD ij.1 0) ]
    else [])

theorem symmetricBernoulliEdges_swap (nodes : List Nat) (trial : Nat → Nat → Bool)
    (a b : Nat) (h : (a, b) ∈ symmetricBernoulliEdges nodes trial) :
    (b, a) ∈ symmetricBernoulliEdges nodes trial := by
  rw [symmetricBernoulliEdges, List.mem_flatMap] at h ⊢
  obtain ⟨ij, hij, hmem⟩ := h
  refine ⟨ij, hij, ?_⟩
  by_cases ht : trial ij.1 ij.2 = true
  · rw [if_pos ht] at hmem ⊢
    rcases List.mem_pair.mp hmem with h1 | h2
    · rw [Prod.mk.injEq] at h1
      exact List.mem_pair.mpr (Or.inr (by rw [Prod.mk.injEq]; exact ⟨h1.2, h1.1⟩))
    · rw [Prod.mk.injEq] at h2
      exact List.mem_pair.mpr (Or.inl (by rw [Prod.mk.injEq]; exact ⟨h2.2, h2.1⟩))
  · rw [if_neg ht] at hmem
    exact absurd hmem (List.not_mem_nil _)

/-- C2: for the symmetric Bernoulli rule, an edge (a, b) is created iff its
reciprocal (b, a) is, because only ordered index pairs `i < j` are enumerated — each
unordered pair exactly once — and one trial decides both directed edges. -/
theorem symmetric_bernoulli_reciprocity (nodes : List Nat) (trial : Nat → Nat → Bool)
    (a b : Nat) :
    ((a, b) ∈ symmetricBernoulliEdges nodes trial ↔
      (b, a) ∈ symmetricBernoulliEdges nodes trial) ∧
    (∀ ij ∈ symPairs nodes.length, ij.1 < ij.2) ∧
    (symPairs nodes.length).Nodup ∧
    (∀ i j, i < j → j < nodes.length → (i, j) ∈ symPairs nodes.length) := by
  refine ⟨⟨symmetricBernoulliEdges_swap nodes trial a b,
           symmetricBernoulliEdges_swap nodes trial b a⟩, ?_, ?_, ?_⟩
  · intro ij hij
    rw [symPairs, List.mem_flatMap] at hij
    obtain ⟨i, _, hmem⟩ := hij
    rw [List.mem_map] at hmem
    obtain ⟨j, hj, rfl⟩ := hmem
    exact of_decide_eq_true (List.mem_filter.mp hj).2
  · rw [symPairs, List.nodup_flatMap]
    constructor
    · intro i _
      exact (((List.nodup_range _).filter _).map (fun a b h => by
        simpa using congrArg Prod.snd h))
    · refine (List.pairwise_lt_range _).imp ?_
      intro i k hik x hx hx2
      rw [List.mem_map] at hx hx2
      obtain ⟨j1, _, he1⟩ := hx
      obtain ⟨j2, _, he2⟩ := hx2
      have : i = k := by
        have e1 := congrArg Prod.fst he1
        have e2 := congrArg Prod.fst he2
        simp at e1 e2
        rw [e1, e2]
      exact absurd this (Nat.ne_of_lt hik)
  · intro i j hij hj
    rw [symPairs, List.mem_flatMap]
    refine ⟨i, List.mem_range.mpr (Nat.lt_trans hij hj), ?_⟩
    rw [List.mem_map]
    exact ⟨j, List.mem_filter.mpr ⟨List.mem_range.mpr hj, decide_eq_true hij⟩, rfl⟩

/-- Witness for C2: on the population \x7b5, 6, 7\x7d with a concrete trial function,
the created edge set is reciprocal, and the enumerated pair (0, 1) satisfies
`i < j`. -/
theorem symmetric_bernoulli_reciprocity_witness :
    ((5, 6) ∈ symmetricBernoulliEdges [ 5, 6, 7 ] (fun i j => (i + j) % 2 == 0) ↔
      (6, 5) ∈ symmetricBernoulliEdges [ 5, 6, 7 ] (fun i j => (i + j) % 2 == 0)) ∧
    (0, 1).1 < (0, 1).2 :=
  ⟨(symmetric_bernoulli_reciprocity [ 5, 6, 7 ] (fun i j => (i + j) % 2 == 0) 5 6).1,
   (symmetric_bernoulli_reciprocity [ 5, 6, 7 ] (fun i j => (i + j) % 2 == 0) 5 6).2.1
     (0, 1) (by decide)⟩

/-- Modelled from the spec: a deterministic linear congruential step standing for the
per-worker random stream (spec section 6: `uniform01(workerId)` etc.). -/
def lcgNext (s : Nat) : Nat := (s * 1103515245 + 12345) % 2147483648

/-- Modelled from the spec: each virtual process's stream is seeded deterministically
from the global seed plus the vp index, independent of how vps are packed into
processes and threads (spec section 6: "seeded deterministically from a global seed
plus worker/process index so that reseeding with the same global seed reproduces
identical draws regardless of process/worker partitioning"). -/
def streamInit (seed vp : Nat) : Nat := (seed * 2654435761 + vp) % 2147483648

/-- Modelled from the spec: ownership of a target by a virtual process is a fixed,
deterministic partition function of the target alone (spec sections 5 and 4.5:
"assigns ownership by a deterministic partition function, not by arrival order"). -/
def vpOfTarget (numVps tgt : Nat) : Nat := tgt % numVps

/-- Modelled from the spec: a deterministic draw indexed by its position in the
rule's canonical enumeration, a pure function of the global seed and the position, so
that every worker computes the same value for the same logical draw (spec sections 5
and 6, and section 4.5's reproducible count-bounded scheme). -/
def drawAt (seed k : Nat) : Nat := lcgNext (seed + 2654435761 * k)

/-- Modelled from the spec: the validated connection-rule configuration a builder is
constructed from (spec section 3): the two population handles (as node-id lists), the
fixed number of virtual processes, and the rule-specific scalars (in/out-degree,
total count, acceptance thresholds in percent, astrocyte population). -/
structure ConnConfig where
  sources : List Nat
  targets : List Nat
  numVps : Nat
  indegree : Nat
  outdegree : Nat
  totalN : Nat
  pct : Nat
  pctAstro : Nat
  astrocytes : List Nat
deriving Repr, DecidableEq

/-- Modelled from the spec: the one-to-one rule's per-vp shard (spec section 4.2:
canonical order pairs `sources[i]` with `targets[i]`; spec section 5: each worker
materializes exactly the pairs whose target it owns). -/
def oneToOneVpEdges (cfg : ConnConfig) (vp : Nat) : List (Nat × Nat) :=
  ((List.range (min cfg.sources.length cfg.targets.length)).filter
      (fun i => vpOfTarget cfg.numVps (cfg.targets.getD i 0) = vp)).map
    (fun i => (cfg.sources.getD i 0, cfg.targets.getD i 0))

/-- Modelled from the spec: the all-to-all rule's per-vp shard (spec section 4.3:
loop over targets and, per target, over all sources; spec section 5: each worker
keeps exactly the targets it owns). -/
def allToAllVpEdges (cfg : ConnConfig) (vp : Nat) : List (Nat × Nat) :=
  (cfg.targets.filter (fun t => vpOfTarget cfg.numVps t = vp)).flatMap
    (fun t => cfg.sources.map (fun s => (s, t)))

/-- Modelled from the spec: the Bernoulli rule's per-vp shard (spec sections 4.6, 5
and 6): the vp visits its owned targets in canonical order and, for each
(source, target) pair, draws the next value of its own seeded stream, accepting when
the draw falls below the threshold `pct` (percent).  A pure function of the global
seed, the fixed vp count and the vp index — never of the process/thread layout. -/
def bernoulliVpEdges (cfg : ConnConfig) (seed vp : Nat) : List (Nat × Nat) :=
  ((cfg.targets.filter (fun t => vpOfTarget cfg.numVps t = vp)).flatMap
      (fun t => cfg.sources.map (fun s => (s, t)))).foldl
    (fun acc pair =>
      let s := lcgNext acc.2
      (if s % 100 < cfg.pct then acc.1 ++ [ pair ] else acc.1, s))
    ([], streamInit seed vp)
    |>.1

/-- Modelled from the spec: the fixed-in-degree rule's per-vp shard (spec section
4.4, multapse-permitting form): for each target, `indegree` source picks are drawn
from the stream of the worker owning that target. -/
def fixedInDegreeVpEdges (cfg : ConnConfig) (seed vp : Nat) : List (Nat × Nat) :=
  ((cfg.targets.filter (fun t => vpOfTarget cfg.numVps t = vp)).flatMap
      (fun t => (List.range cfg.indegree).map (fun _ => t))).foldl
    (fun acc t =>
      let s := lcgNext acc.2
      (acc.1 ++ [ (cfg.sources.getD (s % max cfg.sources.length 1) 0, t) ], s))
    ([], streamInit seed vp)
    |>.1

/-- Modelled from the spec: the fixed-out-degree rule's per-vp shard (spec section
4.4 mirrored, multapse-permitting form): every source's `outdegree` target picks are
a deterministic function of the global seed and the draw's position in the canonical
enumeration, so every vp computes the same picks and keeps exactly those whose target
it owns (spec section 5). -/
def fixedOutDegreeVpEdges (cfg : ConnConfig) (seed vp : Nat) : List (Nat × Nat) :=
  ((List.range cfg.sources.length).flatMap
      (fun i => (List.range cfg.outdegree).map
        (fun k => ((cfg.sources.getD i 0 : Nat),
          cfg.targets.getD (drawAt seed (i * cfg.outdegree + k) % max cfg.targets.length 1) 0)))).filter
    (fun e => vpOfTarget cfg.numVps e.2 = vp)

/-- Modelled from the spec: the fixed-total-number rule's globally ordered candidate
list (spec section 4.5: the canonical approach "enumerates candidate pairs in a fixed
global order"): pair `k` of the `totalN` requested pairs is drawn deterministically
from the global seed and `k` alone. -/
def fixedTotalPairs (cfg : ConnConfig) (seed : Nat) : List (Nat × Nat) :=
  (List.range cfg.totalN).map (fun k =>
    ((cfg.sources.getD (drawAt seed k % max cfg.sources.length 1) 0 : Nat),
      cfg.targets.getD ((drawAt seed k / max cfg.sources.length 1) % max cfg.targets.length 1) 0))

/-- Modelled from the spec: the fixed-total-number rule's per-vp shard (spec section
4.5: ownership of each globally enumerated pair is assigned "by a deterministic
partition function, not by arrival order"): the vp keeps exactly the pairs whose
target it owns, so the shards are disjoint and their union across all vps is the full
`totalN`-pair list (proved below in `fixed_total_number_complete`). -/
def fixedTotalNumberVpEdges (cfg : ConnConfig) (seed vp : Nat) : List (Nat × Nat) :=
  (fixedTotalPairs cfg seed).filter (fun e => vpOfTarget cfg.numVps e.2 = vp)

/-- Modelled from the spec: the astrocyte-mediated rule's per-vp shard (spec section
4.8: "strictly a superset of the plain Bernoulli algorithm"; each accepted pair
additionally attempts, with probability `pctAstro` keyed off the same deterministic
draws, to route through a nearby astrocyte, adding a neuron→astrocyte and an
astrocyte→neuron edge alongside the direct edge). -/
def bernoulliAstroVpEdges (cfg : ConnConfig) (seed vp : Nat) : List (Nat × Nat) :=
  (bernoulliVpEdges cfg seed vp).flatMap
    (fun e =>
      if drawAt seed (e.1 * 7919 + e.2) % 100 < cfg.pctAstro then
        [ e, (e.1, cfg.astrocytes.getD ((e.1 + e.2) % max cfg.astrocytes.length 1) 0),
          (cfg.astrocytes.getD ((e.1 + e.2) % max cfg.astrocytes.length 1) 0, e.2) ]
      else [ e ])

/-- Modelled from the spec: the symmetric Bernoulli rule's per-vp shard (spec
sections 4.7 and 5): each unordered pair's single trial is a deterministic function
of the global seed and the pair's position in the canonical enumeration, so every vp
agrees on every trial; a vp creates exactly the directed edges whose target it owns —
the two reciprocal edges of one accepted pair may be created by different vps, but
the union over all vps is the full reciprocal edge set of C2's enumeration. -/
def symmetricBernoulliVpEdges (cfg : ConnConfig) (seed vp : Nat) : List (Nat × Nat) :=
  (symmetricBernoulliEdges cfg.targets
      (fun i j => decide (drawAt seed (i * cfg.targets.length + j) % 100 < cfg.pct))).filter
    (fun e => vpOfTarget cfg.numVps e.2 = vp)

/-- Modelled from the spec: the structural-plasticity builder's per-vp shard for one
incremental `sp_connect` call (spec section 4.9: explicit candidate source/target id
lists supplied by the plasticity-policy engine, connected pairwise like the
one-to-one rule, each worker handling the targets it owns). -/
def spVpEdges (cfg : ConnConfig) (vp : Nat) : List (Nat × Nat) :=
  oneToOneVpEdges cfg vp

/-- Modelled from the spec: the per-virtual-process shard of every rule's `connect_`
algorithm (the rule bodies are not in this tree; spec sections 4.2-4.9).  Every case
is a pure function of the rule, the configuration, the global seed and the vp index:
ownership is the fixed deterministic partition function `vpOfTarget`, and every
random draw comes either from the vp's own seeded stream or from the draw's position
in the rule's canonical enumeration (spec sections 5 and 6) — never from the
process/thread layout. -/
def vpEdgesForRule (r : Rule) (cfg : ConnConfig) (seed vp : Nat) : List (Nat × Nat) :=
  match r with
  | .oneToOne => oneToOneVpEdges cfg vp
  | .allToAll => allToAllVpEdges cfg vp
  | .fixedInDegree => fixedInDegreeVpEdges cfg seed vp
  | .fixedOutDegree => fixedOutDegreeVpEdges cfg seed vp
  | .fixedTotalNumber => fixedTotalNumberVpEdges cfg seed vp
  | .bernoulli => bernoulliVpEdges cfg seed vp
  | .bernoulliAstro => bernoulliAstroVpEdges cfg seed vp
  | .symmetricBernoulli => symmetricBernoulliVpEdges cfg seed vp
  | .sp => spVpEdges cfg vp

/-- Modelled from the spec: one process executes the workers (virtual processes)
assigned to it, each running its own shard; the process contributes the concatenation
of its vps' edges (spec section 5). -/
def processEdges (gen : Nat → List (Nat × Nat)) (vps : List Nat) : List (Nat × Nat) :=
  vps.flatMap gen

/-- Modelled from the spec: a full `connect()` run under a machine configuration
`partition` — the assignment of the fixed set of virtual processes to however many
processes/threads are used — collected as the multiset of all edges created across
all processes (spec section 8: order-independent comparison). -/
def runEdges (gen : Nat → List (Nat × Nat)) (partition : List (List Nat)) :
    Multiset (Nat × Nat) :=
  (partition.flatMap (processEdges gen) : List (Nat × Nat))

theorem runEdges_eq_bind (gen : Nat → List (Nat × Nat)) (partition : List (List Nat)) :
    runEdges gen partition =
      (partition.flatten : Multiset Nat).bind (fun vp => (gen vp : List (Nat × Nat))) := by
  rw [runEdges, Multiset.coe_bind]
  congr 1
  rw [List.flatten_eq_flatMap, List.flatMap_assoc]
  rfl

/-- C1: for every rule and every configuration, running `connect()` with the same
global seed over the same populations under two machine layouts that distribute the
same fixed set of virtual processes across different worker/process counts produces
the same multiset of (source, target) edges. -/
theorem connect_worker_count_independent (r : Rule) (cfg : ConnConfig) (seed : Nat)
    (p1 p2 : List (List Nat))
    (h : (p1.flatten : Multiset Nat) = (p2.flatten : Multiset Nat)) :
    runEdges (vpEdgesForRule r cfg seed) p1 = runEdges (vpEdgesForRule r cfg seed) p2 := by
  rw [runEdges_eq_bind, runEdges_eq_bind, h]

/-- Concrete configuration used to witness C1. -/
def witnessConfig : ConnConfig :=
  { sources := [ 1, 2, 3, 4 ], targets := [ 10, 11, 12 ], numVps := 3,
    indegree := 2, outdegree := 1, totalN := 5, pct := 37, pctAstro := 50,
    astrocytes := [ 20, 21 ] }

/-- Witness for C1, at the fixed-total-number rule (the most partition-sensitive
case): the run with one process holding three workers equals the run with three
single-worker processes, at a concrete seed and configuration. -/
theorem connect_worker_count_independent_witness :
    runEdges (vpEdgesForRule Rule.fixedTotalNumber witnessConfig 42) [ [ 0, 1, 2 ] ] =
      runEdges (vpEdgesForRule Rule.fixedTotalNumber witnessConfig 42)
        [ [ 0 ], [ 1 ], [ 2 ] ] :=
  connect_worker_count_independent Rule.fixedTotalNumber witnessConfig 42
    [ [ 0, 1, 2 ] ] [ [ 0 ], [ 1 ], [ 2 ] ] (by decide)

theorem count_filter_if {α : Type} [DecidableEq α] (l : List α) (p : α → Bool) (a : α) :
    List.count a (List.filter p l) = if p a then List.count a l else 0 := by
  induction l with
  | nil => simp
  | cons b t ih =>
    by_cases hb : p b = true
    · rw [List.filter_cons_of_pos hb, List.count_cons, ih, List.count_cons]
      by_cases hab : b = a
      · subst hab
        simp [hb]
      · simp [hab]
    · rw [List.filter_cons_of_neg hb, ih, List.count_cons]
      by_cases hab : b = a
      · subst hab
        simp [hb]
      · simp [hab]

theorem sum_single_bucket (x c V : Nat) :
    ((List.range V).map (fun vp => if x = vp then c else 0)).sum =
      if x < V then c else 0 := by
  induction V with
  | zero => simp
  | succ V ih =>
    rw [List.range_succ, List.map_append, List.sum_append, ih]
    by_cases h : x < V
    · have hne : x ≠ V := Nat.ne_of_lt h
      simp [h, Nat.lt_succ_of_lt h, hne]
    · by_cases he : x = V
      · simp [he, h, Nat.lt_succ_self]
      · have hns : ¬x < V + 1 := by omega
        simp [h, he, hns]

theorem shards_union_complete (l : List (Nat × Nat)) (own : Nat × Nat → Nat) (V : Nat)
    (h : ∀ e ∈ l, own e < V) :
    (((List.range V).flatMap (fun vp => l.filter (fun e => own e = vp))) :
        Multiset (Nat × Nat)) = (l : Multiset (Nat × Nat)) := by
  rw [← Multiset.coe_bind]
  rw [Multiset.ext]
  intro a
  rw [Multiset.count_bind, Multiset.map_coe, Multiset.sum_coe]
  have hc : ∀ vp : Nat,
      Multiset.count a (↑(l.filter (fun e => decide (own e = vp))) : Multiset (Nat × Nat)) =
        if own a = vp then Multiset.count a (l : Multiset (Nat × Nat)) else 0 := by
    intro vp
    rw [Multiset.coe_count, count_filter_if, Multiset.coe_count]
    by_cases hv : own a = vp
    · simp [hv]
    · simp [hv]
  rw [List.map_congr_left (fun vp _ => hc vp), sum_single_bucket]
  by_cases hm : a ∈ l
  · rw [if_pos (h a hm)]
  · rw [Multiset.count_eq_zero.mpr (by simpa using hm)]
    simp

theorem runEdges_singleton (gen : Nat → List (Nat × Nat)) (vps : List Nat) :
    runEdges gen [ vps ] = (vps.flatMap gen : List (Nat × Nat)) := by
  rw [runEdges]
  simp [processEdges]

/-- Completeness of the fixed-total-number model (spec sections 4.5 and 8): under any
positive vp count, the union of all virtual processes' shards is exactly the
sequential list of `totalN` globally enumerated pairs, so the edge count summed over
all workers is exactly `totalN` — the per-vp filters do not lose or duplicate any of
the `totalN` requested edges. -/
theorem fixed_total_number_complete (cfg : ConnConfig) (seed : Nat)
    (h : 0 < cfg.numVps) :
    runEdges (vpEdgesForRule Rule.fixedTotalNumber cfg seed) [ List.range cfg.numVps ] =
      (fixedTotalPairs cfg seed : List (Nat × Nat)) ∧
    Multiset.card (runEdges (vpEdgesForRule Rule.fixedTotalNumber cfg seed)
        [ List.range cfg.numVps ]) = cfg.totalN := by
  have hu : runEdges (vpEdgesForRule Rule.fixedTotalNumber cfg seed)
      [ List.range cfg.numVps ] = (fixedTotalPairs cfg seed : List (Nat × Nat)) := by
    rw [runEdges_singleton]
    exact shards_union_complete (fixedTotalPairs cfg seed)
      (fun e => vpOfTarget cfg.numVps e.2) cfg.numVps (fun e _ => Nat.mod_lt _ h)
  refine ⟨hu, ?_⟩
  rw [hu, Multiset.coe_card, fixedTotalPairs]
  simp

end Nest
